import Mathlib

/-!
Verification development for the stabilizer DSP core: a shallow embedding of
`src/dsp/src/pll.rs` (type-II sampled-phase PLL), `src/dsp/src/iir_int.rs`
(fixed-point biquad IIR), and the double-buffer hand-off protocol of
`src/src/dac.rs`, together with theorems settling the specification claims.

Machine integers are embedded as `Int` with explicit two's-complement
wrapping: an `i32` value is an integer in `[-2^31, 2^31)`, an `i64` value an
integer in `[-2^63, 2^63)`. Rust's wrapping operations are the exact
operation followed by `wrap32`/`wrap64`; Rust's arithmetic right shift `>>`
on a signed value is floor division by a power of two (`asr`). Fallible
steps (shifts whose amount could overflow the bit width, the `u8`
subtraction `shift - 1`) are modelled in an `Option`-returning variant to
capture panic freedom.
-/

namespace Stabilizer

/-- Reduce an integer to the `i32` two's-complement representative in
`[-2^31, 2^31)`; `wrap32 z ≡ z (mod 2^32)`. -/
def wrap32 (z : Int) : Int := (z + 2147483648) % 4294967296 - 2147483648

/-- Reduce an integer to the `i64` two's-complement representative in
`[-2^63, 2^63)`; `wrap64 z ≡ z (mod 2^64)`. -/
def wrap64 (z : Int) : Int :=
  (z + 9223372036854775808) % 18446744073709551616 - 9223372036854775808

/-- Arithmetic right shift of a two's-complement value: floor division by
`2^s` (Lean's `Int` division is Euclidean, which is floor division for a
positive divisor). -/
def asr (v : Int) (s : Nat) : Int := v / 2 ^ s

theorem wrap32_congr {a b : Int} (h : a % 4294967296 = b % 4294967296) :
    wrap32 a = wrap32 b := by
  unfold wrap32; omega

theorem wrap32_eq_self {a : Int} (h1 : -2147483648 ≤ a) (h2 : a < 2147483648) :
    wrap32 a = a := by
  unfold wrap32; omega

/-- Last input phase `x`, filtered frequency `f`, filtered output phase `y`
(`src/dsp/src/pll.rs`, struct `PLLState`); `i32` fields. -/
structure PLLState where
  x : Int
  f : Int
  y : Int
  deriving DecidableEq, Repr

/-- The all-zero state produced by `PLLState::default()`. -/
def PLLState.default : PLLState := ⟨0, 0, 0⟩

/-- `PLLState::update` (`src/dsp/src/pll.rs`): embedding of

```
let bias = 1i32 << shift;
let e = x.wrapping_sub(self.f);
self.f = self.f.wrapping_add((bias >> 1).wrapping_add(e).wrapping_sub(self.x) >> shift);
self.x = x;
let f = self.f.wrapping_add(bias.wrapping_add(e).wrapping_sub(self.y) >> shift - 1);
self.y = self.y.wrapping_add(f);
(self.y, f)
```

`1i32 << shift` drops the bits shifted past the sign bit, i.e. it is
`wrap32 (1 * 2^shift)`. Returns the updated state paired with the returned
`(phase, frequency)` tuple. -/
def PLLState.update (st : PLLState) (x : Int) (shift : Nat) :
    PLLState × Int × Int :=
  let bias := wrap32 (1 * 2 ^ shift)
  let e := wrap32 (x - st.f)
  let f1 := wrap32 (st.f + asr (wrap32 (wrap32 (asr bias 1 + e) - st.x)) shift)
  let fOut := wrap32 (f1 + asr (wrap32 (wrap32 (bias + e) - st.y)) (shift - 1))
  let y1 := wrap32 (st.y + fOut)
  (⟨x, f1, y1⟩, y1, fOut)

/-- A left shift of an `i32` panics (in a debug build) exactly when the shift
amount reaches the bit width; otherwise the shifted-out bits are dropped. -/
def shlChecked32 (v : Int) (s : Nat) : Option Int :=
  if s < 32 then some (wrap32 (v * 2 ^ s)) else none

/-- An arithmetic right shift panics (in a debug build) exactly when the
shift amount reaches the bit width. -/
def asrChecked (v : Int) (s : Nat) : Option Int :=
  if s < 32 then some (asr v s) else none

/-- The `u8` subtraction `shift - 1` panics (in a debug build) when it
underflows. -/
def predChecked (s : Nat) : Option Nat :=
  if 1 ≤ s then some (s - 1) else none

/-- `PLLState::update` with every fallible arithmetic step (the two shifts,
the shift-amount subtraction) made explicit; `none` models a panic. The
`wrapping_*` operations are total and never fail. -/
def PLLState.updateChecked (st : PLLState) (x : Int) (shift : Nat) :
    Option (PLLState × Int × Int) :=
  (shlChecked32 1 shift).bind fun bias =>
    let e := wrap32 (x - st.f)
    (asrChecked bias 1).bind fun halfBias =>
      (asrChecked (wrap32 (wrap32 (halfBias + e) - st.x)) shift).bind fun df =>
        let f1 := wrap32 (st.f + df)
        (predChecked shift).bind fun sm1 =>
          (asrChecked (wrap32 (wrap32 (bias + e) - st.y)) sm1).bind fun dy =>
            let fOut := wrap32 (f1 + dy)
            let y1 := wrap32 (st.y + fOut)
            some (⟨x, f1, y1⟩, y1, fOut)

/-- The update step exactly as claim C1 words it: half-bias written as the
32-bit value of `2^(shift-1)` and full bias as the 32-bit value of
`2^shift`, all other arithmetic 32-bit wrapping with arithmetic right
shifts, in the code's evaluation order. -/
def PLLState.updateSpecC1 (st : PLLState) (x : Int) (shift : Nat) :
    PLLState × Int × Int :=
  let e := wrap32 (x - st.f)
  let f1 := wrap32 (st.f + asr (wrap32 (wrap32 (wrap32 (2 ^ (shift - 1)) + e) - st.x)) shift)
  let fOut := wrap32 (f1 + asr (wrap32 (wrap32 (wrap32 (2 ^ shift) + e) - st.y)) (shift - 1))
  let y1 := wrap32 (st.y + fOut)
  (⟨x, f1, y1⟩, y1, fOut)

/-- `Vec5` (`src/dsp/src/iir_int.rs`): a five-element signed 32-bit vector,
holding either filter state `[x0, x1, y0, y1, y2]` or coefficients
`[b0, b1, b2, a1, a2]`. Field `eI` is array slot `I`. -/
structure Vec5 where
  e0 : Int
  e1 : Int
  e2 : Int
  e3 : Int
  e4 : Int
  deriving DecidableEq, Repr

/-- `macc` (`src/dsp/src/iir_int.rs`): seed the `i64` accumulator with
`(y0 << shift) + (1 << (shift - 1))` (rounding bias, half up), fold in the
widened products `x[i] * a[i]`, and narrow with `(acc >> shift) as i32`.
`i64` addition wraps modulo `2^64`; the `i32 -> i64` casts are the identity
on the embedded values. -/
def macc (y0 : Int) (x a : List Int) (shift : Nat) : Int :=
  let acc := wrap64 (y0 * 2 ^ shift + 2 ^ (shift - 1))
  let y := (x.zip a).foldl (fun y p => wrap64 (y + p.1 * p.2)) acc
  wrap32 (asr y shift)

/-- `IIR::SHIFT`: Q2.30 coefficient fixed-point format. -/
def IIR.SHIFT : Nat := 30

/-- `IIR::update` (`src/dsp/src/iir_int.rs`): shift the history
(`copy_within(0..4, 1)`), store the new input in slot 0, multiply-accumulate
the shifted state against the coefficients, store the output in slot
`n / 2 = 2`, and return it. Takes the coefficient vector `ba` (read-only
`&self`) and the state `xy`, returning the new state and the output. -/
def IIR.update (ba : Vec5) (xy : Vec5) (x0 : Int) : Vec5 × Int :=
  let s1 : Vec5 := ⟨x0, xy.e0, xy.e1, xy.e2, xy.e3⟩
  let y0 := macc 0 [s1.e0, s1.e1, s1.e2, s1.e3, s1.e4]
    [ba.e0, ba.e1, ba.e2, ba.e3, ba.e4] IIR.SHIFT
  (⟨s1.e0, s1.e1, y0, s1.e3, s1.e4⟩, y0)

/-- The update exactly as claim C2 words it: the new output is the 32-bit
truncation of `(b0*x + b1*x0 + b2*x1 + a1*y0 + a2*y1 + 2^29) >> 30` (signed
arithmetic shift), and the state becomes `[x, x0, y_new, y0, y1]`. -/
def IIR.updateSpecC2 (ba : Vec5) (xy : Vec5) (x0 : Int) : Vec5 × Int :=
  let yN := wrap32 (asr (ba.e0 * x0 + ba.e1 * xy.e0 + ba.e2 * xy.e1 +
    ba.e3 * xy.e2 + ba.e4 * xy.e3 + 2 ^ 29) 30)
  (⟨x0, xy.e0, yN, xy.e2, xy.e3⟩, yN)

/-- The coefficient assembly of `Vec5::lowpass` (`src/dsp/src/iir_int.rs`):
`Self([b0, 2 * b0, b0, a1, a2])`. The `f32` Taylor/Q2.30 computation that
produces `b0`, `a1`, `a2` is floating point and is abstracted here as
arbitrary integer parameters, over-approximating every value those casts can
yield; `2 * b0` is the `i32` product. -/
def Vec5.lowpass (b0 a1 a2 : Int) : Vec5 :=
  ⟨b0, wrap32 (2 * b0), b0, a1, a2⟩

/-- Modelled from the spec: FixedVector5 encodes as a fixed-size record of
its five 32-bit integers in stable field order (the serde derive on `Vec5`
is not part of the sources under study). -/
def Vec5.encode (v : Vec5) : List Int := [v.e0, v.e1, v.e2, v.e3, v.e4]

/-- Modelled from the spec: decoding a five-integer record restores the
fields in order; any other shape is rejected. -/
def Vec5.decode : List Int → Option Vec5
  | [a, b, c, d, e] => some ⟨a, b, c, d, e⟩
  | _ => none

/-- Modelled from the spec: PLLState encodes as its fields `x`, `f`, `y` in
that stable order (the serde derive on `PLLState` is not part of the
sources under study). -/
def PLLState.encode (s : PLLState) : List Int := [s.x, s.f, s.y]

/-- Modelled from the spec: decoding a three-integer record restores
`x`, `f`, `y` in order; any other shape is rejected. -/
def PLLState.decode : List Int → Option PLLState
  | [a, b, c] => some ⟨a, b, c⟩
  | _ => none

/-- Modelled from the spec: state of one DAC channel's double-buffer
pipeline. `reading0`/`reading1` say whether the hardware consumer is still
streaming (reading) buffer 0/1; `idleBuf` is the buffer the producer
currently treats as `Idle` (writable), `true` meaning buffer 1. -/
structure PipeState where
  reading0 : Bool
  reading1 : Bool
  idleBuf : Bool
  deriving DecidableEq, Repr

/-- Whether the hardware is still reading buffer `b`. -/
def PipeState.readingOf (s : PipeState) (b : Bool) : Bool :=
  if b then s.reading1 else s.reading0

/-- The armed initial state: buffer 0 has been submitted and is in flight
(hardware reading it, transfer not yet complete), buffer 1 is idle. -/
def PipeState.armed : PipeState := ⟨true, false, true⟩

/-- Events of the pipeline: a `process` call by the producer, or the
hardware signalling that it finished reading buffer `b`. -/
inductive PipeEv where
  | procEv : PipeEv
  | doneEv : Bool → PipeEv
  deriving DecidableEq, Repr

/-- The buffer handed to the producer callback is still being read by the
hardware: the simultaneous `Idle`/`InFlight` ownership the spec forbids. -/
def PipeState.hazard (s : PipeState) : Bool := s.readingOf s.idleBuf

/-- `process` as `src/src/dac.rs` implements it: the wait on
`get_transfer_complete_flag` is commented out, so the producer callback
overwrites the idle buffer and submits it unconditionally; the other buffer
becomes the new idle buffer whether or not its transfer has completed.
Hardware completion (modelled from the spec) clears the reading flag of the
finished buffer. -/
def stepCode (s : PipeState) : PipeEv → PipeState
  | .procEv =>
    { reading0 := if s.idleBuf then s.reading0 else true
      reading1 := if s.idleBuf then true else s.reading1
      idleBuf := !s.idleBuf }
  | .doneEv b =>
    if b then { s with reading1 := false } else { s with reading0 := false }

/-- Run the code's pipeline over a sequence of events. -/
def runCode (s : PipeState) (evs : List PipeEv) : PipeState :=
  evs.foldl stepCode s

/-- Modelled from the spec: the guarded `process` (the commented-out wait
made effective) blocks until the transfer of the previously in-flight
buffer has completed before swapping; the completion event is as in
`stepCode`. -/
def stepGuarded (s : PipeState) : PipeEv → PipeState
  | .procEv =>
    if s.readingOf (!s.idleBuf) then s
    else
      { reading0 := if s.idleBuf then s.reading0 else true
        reading1 := if s.idleBuf then true else s.reading1
        idleBuf := !s.idleBuf }
  | .doneEv b =>
    if b then { s with reading1 := false } else { s with reading0 := false }

/-- Run the guarded pipeline over a sequence of events. -/
def runGuarded (s : PipeState) (evs : List PipeEv) : PipeState :=
  evs.foldl stepGuarded s

/-! ### Theorems -/

/-- C1 counterexample: at `shift = 31` the code's half bias
`(1i32 << 31) >> 1` is the arithmetic right shift of `i32::MIN`, i.e.
`-2^30`, not the claim's `2^(shift-1) = 2^30`; from the zero state with
input `0` the code returns `(-3, -3)` while the claimed formula gives
`(-2, -2)`. -/
theorem pll_update_ne_specC1_at_shift31 :
    PLLState.update ⟨0, 0, 0⟩ 0 31 ≠ PLLState.updateSpecC1 ⟨0, 0, 0⟩ 0 31 := by
  decide

/-- C1 (amended): for every state, every input and every `shift` in
`[1, 30]`, `PLLState::update` computes, in order and in 32-bit wrapping
arithmetic with arithmetic right shifts: `e = input - f_old`;
`f_new = f_old + ((2^(shift-1) + e - x_old) >> shift)`; stores `x := input`;
`f_out = f_new + ((2^shift + e - y_old) >> (shift-1))`;
`y_new = y_old + f_out`; and returns `(y_new, f_out)` leaving the state
`(input, f_new, y_new)`. -/
theorem pll_update_eq_specC1 (st : PLLState) (x : Int) (shift : Nat)
    (h1 : 1 ≤ shift) (h2 : shift ≤ 30) :
    PLLState.update st x shift = PLLState.updateSpecC1 st x shift := by
  have hmono : (2 : Int) ^ shift ≤ 2 ^ 30 :=
    pow_le_pow_right₀ (by norm_num) h2
  have hpos : (0 : Int) ≤ 2 ^ shift := by positivity
  have hbias : wrap32 (1 * 2 ^ shift) = 2 ^ shift := by
    rw [one_mul]
    exact wrap32_eq_self (by omega) (by norm_num at hmono ⊢; omega)
  have hhalfpos : (0 : Int) ≤ 2 ^ (shift - 1) := by positivity
  have hhalfle : (2 : Int) ^ (shift - 1) ≤ 2 ^ shift :=
    pow_le_pow_right₀ (by norm_num) (by omega)
  have hhalf : asr ((2 : Int) ^ shift) 1 = 2 ^ (shift - 1) := by
    have hsplit : (2 : Int) ^ shift = 2 ^ (shift - 1) * 2 := by
      rw [← pow_succ]
      congr 1
      omega
    rw [asr, hsplit, pow_one, Int.mul_ediv_cancel _ (by norm_num)]
  have hhalfw : wrap32 ((2 : Int) ^ (shift - 1)) = 2 ^ (shift - 1) :=
    wrap32_eq_self (by omega) (by norm_num at hmono ⊢; omega)
  have hbias' : wrap32 ((2 : Int) ^ shift) = 2 ^ shift :=
    wrap32_eq_self (by omega) (by norm_num at hmono ⊢; omega)
  unfold PLLState.update PLLState.updateSpecC1
  simp only [hbias, hhalf, hhalfw, hbias']

/-- C1 witness: a concrete instance of the amended claim at `shift = 10`. -/
theorem pll_update_eq_specC1_witness :
    1 ≤ 10 ∧ 10 ≤ 30 ∧
      PLLState.update ⟨1, 2, 3⟩ 5 10 = PLLState.updateSpecC1 ⟨1, 2, 3⟩ 5 10 :=
  ⟨by decide, by decide,
    pll_update_eq_specC1 ⟨1, 2, 3⟩ 5 10 (by decide) (by decide)⟩

/-- C3: from the default (all-zero) state, `update(0x10000, 10)` returns
output phase `0xc2` and an output frequency equal to the output phase. -/
theorem pll_update_golden_vector :
    (PLLState.update PLLState.default 0x10000 10).2.1 = 0xc2 ∧
      (PLLState.update PLLState.default 0x10000 10).2.2 =
        (PLLState.update PLLState.default 0x10000 10).2.1 := by
  decide

/-- The `i64` accumulator chain of `macc` at `shift = 30`: wrapping the
accumulator modulo `2^64` at every step does not change the final value
after the arithmetic shift by 30 and the narrowing cast to `i32`, because
`2^64 / 2^30 = 2^34` is a multiple of `2^32`. -/
theorem macc_chain_eq (p0 p1 p2 p3 p4 : Int) :
    wrap32 (asr (wrap64 (wrap64 (wrap64 (wrap64 (wrap64 (wrap64
        (0 * 2 ^ 30 + 2 ^ (30 - 1)) + p0) + p1) + p2) + p3) + p4)) 30)
      = wrap32 (asr (p0 + p1 + p2 + p3 + p4 + 2 ^ 29) 30) := by
  unfold wrap32 wrap64 asr
  norm_num
  omega

/-- C2: `IIR::update(xy, x)` returns the 32-bit truncation of
`(b0*x + b1*x0 + b2*x1 + a1*y0 + a2*y1 + 2^29) >> 30` (64-bit products and
accumulator, signed arithmetic shift), leaves the state `[x, x0, y_new, y0,
y1]`, and does not modify the coefficient vector. -/
theorem iir_update_eq_specC2 (ba xy : Vec5) (x0 : Int) :
    IIR.update ba xy x0 = IIR.updateSpecC2 ba xy x0 := by
  unfold IIR.update IIR.updateSpecC2 macc IIR.SHIFT
  simp only [List.zip, List.zipWith, List.foldl]
  rw [mul_comm x0 ba.e0, mul_comm xy.e0 ba.e1, mul_comm xy.e1 ba.e2,
    mul_comm xy.e2 ba.e3, mul_comm xy.e3 ba.e4]
  rw [macc_chain_eq]

/-- C10: the output and the new state of `IIR::update` do not depend on the
fifth element of the incoming state vector — the oldest output-history slot
is overwritten by the shift before it is ever read. -/
theorem iir_update_ignores_oldest (ba xy xy' : Vec5) (x0 : Int)
    (h0 : xy.e0 = xy'.e0) (h1 : xy.e1 = xy'.e1) (h2 : xy.e2 = xy'.e2)
    (h3 : xy.e3 = xy'.e3) :
    IIR.update ba xy x0 = IIR.update ba xy' x0 := by
  unfold IIR.update
  rw [h0, h1, h2, h3]

/-- C10 witness: two states differing only in the fifth slot produce the
same output and the same new state. -/
theorem iir_update_ignores_oldest_witness :
    IIR.update ⟨1, 2, 3, 4, 5⟩ ⟨6, 7, 8, 9, 10⟩ 11 =
      IIR.update ⟨1, 2, 3, 4, 5⟩ ⟨6, 7, 8, 9, -12345⟩ 11 :=
  iir_update_ignores_oldest ⟨1, 2, 3, 4, 5⟩ ⟨6, 7, 8, 9, 10⟩
    ⟨6, 7, 8, 9, -12345⟩ 11 rfl rfl rfl rfl

/-- C7: the second lowpass coefficient is twice the first: always twice in
the code's `i32` arithmetic, and exactly `2 * b0` as an integer whenever the
doubling does not overflow (which covers every Q2.30 lowpass coefficient the
design intends). -/
theorem lowpass_b1_twice_b0 (b0 a1 a2 : Int) :
    (Vec5.lowpass b0 a1 a2).e1 = wrap32 (2 * (Vec5.lowpass b0 a1 a2).e0) ∧
      (-1073741824 ≤ b0 → b0 < 1073741824 →
        (Vec5.lowpass b0 a1 a2).e1 = 2 * b0) := by
  refine ⟨rfl, fun hl hu => ?_⟩
  show wrap32 (2 * b0) = 2 * b0
  exact wrap32_eq_self (by omega) (by omega)

/-- C7 witness: a concrete instance with a small coefficient. -/
theorem lowpass_b1_twice_b0_witness :
    (Vec5.lowpass 3 4 5).e1 = wrap32 (2 * (Vec5.lowpass 3 4 5).e0) ∧
      (Vec5.lowpass 3 4 5).e1 = 2 * 3 :=
  ⟨(lowpass_b1_twice_b0 3 4 5).1,
    (lowpass_b1_twice_b0 3 4 5).2 (by decide) (by decide)⟩

/-- C9: the third lowpass coefficient equals the first: `b2 = b0`, by the
assembly `[b0, 2*b0, b0, a1, a2]`. -/
theorem lowpass_b2_eq_b0 (b0 a1 a2 : Int) :
    (Vec5.lowpass b0 a1 a2).e2 = (Vec5.lowpass b0 a1 a2).e0 := rfl

/-- C8: encoding a `Vec5` or a `PLLState` as its fixed-size record of
integers in stable field order and decoding it back is the identity. -/
theorem encode_decode_roundtrip :
    (∀ v : Vec5, Vec5.decode (Vec5.encode v) = some v) ∧
      (∀ s : PLLState, PLLState.decode (PLLState.encode s) = some s) :=
  ⟨fun _ => rfl, fun _ => rfl⟩

/-- C4: the race of `process` as shipped. From the armed state (buffer 0 in
flight and not yet complete, buffer 1 idle), a single `process` call made
before the hardware's completion signal leaves buffer 0 simultaneously
producer-writable (`Idle`) and still being read by the hardware
(`InFlight`) — the exclusivity the claim asserts is violated because the
wait on the transfer-complete flag is commented out. -/
theorem dac_process_race :
    PipeState.hazard (runCode PipeState.armed [PipeEv.procEv]) = true := by
  decide

/-- The guarded `process` (the code's commented-out wait made effective)
preserves hazard freedom on every event. -/
theorem stepGuarded_hazard_free (s : PipeState) (e : PipeEv)
    (h : s.hazard = false) : (stepGuarded s e).hazard = false := by
  rcases s with ⟨r0, r1, ib⟩
  rcases e with _ | b
  · cases ib <;> cases r0 <;> cases r1 <;>
      simp_all [stepGuarded, PipeState.hazard, PipeState.readingOf]
  · cases b <;> cases ib <;> cases r0 <;> cases r1 <;>
      simp_all [stepGuarded, PipeState.hazard, PipeState.readingOf]

/-- With the wait in place, no sequence of `process` calls and completion
signals ever makes a buffer simultaneously `Idle` and `InFlight`: the
spec's intended protocol does satisfy the exclusivity invariant the code
omits. -/
theorem runGuarded_hazard_free (evs : List PipeEv) (s : PipeState)
    (h : s.hazard = false) : (runGuarded s evs).hazard = false := by
  induction evs generalizing s with
  | nil => exact h
  | cons e rest ih =>
      show (runGuarded (stepGuarded s e) rest).hazard = false
      exact ih (stepGuarded s e) (stepGuarded_hazard_free s e h)

/-- Witness for the guarded invariant at a concrete event sequence. -/
theorem runGuarded_hazard_free_witness :
    PipeState.hazard PipeState.armed = false ∧
      PipeState.hazard (runGuarded PipeState.armed
        [PipeEv.procEv, PipeEv.doneEv false, PipeEv.procEv]) = false :=
  ⟨by decide, runGuarded_hazard_free
    [PipeEv.procEv, PipeEv.doneEv false, PipeEv.procEv]
    PipeState.armed (by decide)⟩

/-- C5: for every `shift` in `[1, 31]` every fallible arithmetic step of
`PLLState::update` is defined — the left shift `1 << shift`, the right
shifts by `shift` and `shift - 1`, and the subtraction `shift - 1` all
succeed, so the checked update returns exactly the total wrapping update —
and the result is a pure function of the 32-bit wrapping arithmetic: inputs
and states that agree modulo `2^32` yield identical stored `f` and `y` and
identical returned phase and frequency, no matter how often the phase has
wrapped. -/
theorem pll_update_total_and_wrapping (st st' : PLLState) (x x' : Int)
    (shift : Nat) (h1 : 1 ≤ shift) (h2 : shift ≤ 31)
    (hx : x % 4294967296 = x' % 4294967296)
    (hsx : st.x % 4294967296 = st'.x % 4294967296)
    (hsf : st.f % 4294967296 = st'.f % 4294967296)
    (hsy : st.y % 4294967296 = st'.y % 4294967296) :
    PLLState.updateChecked st x shift = some (PLLState.update st x shift) ∧
      (PLLState.update st x shift).1.f = (PLLState.update st' x' shift).1.f ∧
      (PLLState.update st x shift).1.y = (PLLState.update st' x' shift).1.y ∧
      (PLLState.update st x shift).2 = (PLLState.update st' x' shift).2 := by
  have h32 : shift < 32 := by omega
  have h32' : shift - 1 < 32 := by omega
  have he : wrap32 (x - st.f) = wrap32 (x' - st'.f) := wrap32_congr (by omega)
  have hd1 : wrap32 (wrap32 (asr (wrap32 (1 * 2 ^ shift)) 1 +
        wrap32 (x - st.f)) - st.x)
      = wrap32 (wrap32 (asr (wrap32 (1 * 2 ^ shift)) 1 +
        wrap32 (x' - st'.f)) - st'.x) := by
    rw [he]; exact wrap32_congr (by omega)
  have hf1 : wrap32 (st.f + asr (wrap32 (wrap32 (asr (wrap32 (1 * 2 ^ shift)) 1 +
        wrap32 (x - st.f)) - st.x)) shift)
      = wrap32 (st'.f + asr (wrap32 (wrap32 (asr (wrap32 (1 * 2 ^ shift)) 1 +
        wrap32 (x' - st'.f)) - st'.x)) shift) := by
    rw [hd1]; exact wrap32_congr (by omega)
  have hd2 : wrap32 (wrap32 (wrap32 (1 * 2 ^ shift) + wrap32 (x - st.f)) - st.y)
      = wrap32 (wrap32 (wrap32 (1 * 2 ^ shift) + wrap32 (x' - st'.f)) - st'.y) := by
    rw [he]; exact wrap32_congr (by omega)
  have hfOut : wrap32 (wrap32 (st.f + asr (wrap32 (wrap32 (asr (wrap32 (1 * 2 ^ shift)) 1 +
        wrap32 (x - st.f)) - st.x)) shift) +
        asr (wrap32 (wrap32 (wrap32 (1 * 2 ^ shift) + wrap32 (x - st.f)) - st.y))
          (shift - 1))
      = wrap32 (wrap32 (st'.f + asr (wrap32 (wrap32 (asr (wrap32 (1 * 2 ^ shift)) 1 +
        wrap32 (x' - st'.f)) - st'.x)) shift) +
        asr (wrap32 (wrap32 (wrap32 (1 * 2 ^ shift) + wrap32 (x' - st'.f)) - st'.y))
          (shift - 1)) := by
    rw [hf1, hd2]
  have hy1 : wrap32 (st.y + wrap32 (wrap32 (st.f + asr (wrap32 (wrap32
        (asr (wrap32 (1 * 2 ^ shift)) 1 + wrap32 (x - st.f)) - st.x)) shift) +
        asr (wrap32 (wrap32 (wrap32 (1 * 2 ^ shift) + wrap32 (x - st.f)) - st.y))
          (shift - 1)))
      = wrap32 (st'.y + wrap32 (wrap32 (st'.f + asr (wrap32 (wrap32
        (asr (wrap32 (1 * 2 ^ shift)) 1 + wrap32 (x' - st'.f)) - st'.x)) shift) +
        asr (wrap32 (wrap32 (wrap32 (1 * 2 ^ shift) + wrap32 (x' - st'.f)) - st'.y))
          (shift - 1))) := by
    rw [hfOut]; exact wrap32_congr (by omega)
  refine ⟨?_, ?_, ?_, ?_⟩
  · unfold PLLState.updateChecked PLLState.update shlChecked32 asrChecked predChecked
    simp [h32, h32', h1]
  · simpa only [PLLState.update] using hf1
  · simpa only [PLLState.update] using hy1
  · simp only [PLLState.update]
    rw [hy1, hfOut]

/-- C5 witness: a concrete instance at `shift = 10` with a state and input
shifted by whole multiples of `2^32`. -/
theorem pll_update_total_and_wrapping_witness :
    PLLState.updateChecked ⟨0, 0, 0⟩ 65536 10 =
        some (PLLState.update ⟨0, 0, 0⟩ 65536 10) ∧
      (PLLState.update ⟨0, 0, 0⟩ 65536 10).1.f =
        (PLLState.update ⟨4294967296, -4294967296, 8589934592⟩ 4295032832 10).1.f ∧
      (PLLState.update ⟨0, 0, 0⟩ 65536 10).1.y =
        (PLLState.update ⟨4294967296, -4294967296, 8589934592⟩ 4295032832 10).1.y ∧
      (PLLState.update ⟨0, 0, 0⟩ 65536 10).2 =
        (PLLState.update ⟨4294967296, -4294967296, 8589934592⟩ 4295032832 10).2 :=
  pll_update_total_and_wrapping ⟨0, 0, 0⟩
    ⟨4294967296, -4294967296, 8589934592⟩ 65536 4295032832 10
    (by decide) (by decide) (by decide) (by decide) (by decide) (by decide)

end Stabilizer
